import Mathlib

/-!
# Verification of the simd-json value-extraction core

Shallow embedding of the tape-walker, lazy-number and serde-bridge code
(`src/serde.rs`, `src/number.rs`) together with models of the small external
interfaces those files use (`value_trait::StaticNode` accessors,
`serde_json::Value`/`Number`), and proofs of the specification claims.

Machine integers are embedded as `Nat`/`Int` with explicit range conditions
where the width matters; `f64` is embedded as an inductive separating finite
values (exact payload) from `NaN`/`±∞`, which is the only structure the
verified claims depend on.
-/

deriving instance DecidableEq for Except

/-- Model of an IEEE `f64` for the purposes of this development: a finite
value with an exact payload, or one of the non-finite values.  Rounding of
finite arithmetic is abstracted (no claim here depends on it); finiteness
classification is explicit because the serde bridge branches on it. -/
inductive F64 where
  | finite (q : ℚ)
  | nan
  | inf
  | negInf
deriving DecidableEq, Repr

/-- `f64::is_finite` on the model. -/
def F64.isFinite : F64 → Bool
  | .finite _ => true
  | _ => false

/-- `value_trait::StaticNode` (with the `128bit` feature, as matched by the
conversion code in `serde.rs`): the closed set of JSON scalar values. -/
inductive StaticNode where
  | null
  | bool (b : Bool)
  | i64 (n : ℤ)
  | u64 (n : ℕ)
  | f64 (f : F64)
  | i128 (n : ℤ)
  | u128 (n : ℕ)
deriving DecidableEq, Repr

/-- Representation invariant of the machine-integer payloads: each value is
within the range of its declared Rust width. -/
def StaticNode.wf : StaticNode → Bool
  | .i64 n => (-(2 ^ 63) ≤ n) && (n < 2 ^ 63)
  | .u64 n => n < 2 ^ 64
  | .i128 n => (-(2 ^ 127) ≤ n) && (n < 2 ^ 127)
  | .u128 n => n < 2 ^ 128
  | _ => true

/-- Tape node (`simd_json::Node`).  The container markers carry the skip
offset described by the spec; the walker claims never inspect it.
Modelled from the spec: the tape module itself is not among the provided
source files, only its consumer `serde.rs` is. -/
inductive Node where
  | static (s : StaticNode)
  | string (s : String)
  | arrayStart (endIdx : ℕ)
  | objectStart (endIdx : ℕ)
deriving DecidableEq, Repr

/-- Kinds of the parse/extraction error family (`ErrorType` in the source);
only the kind is modelled, not the position/character payload of `Error`. -/
inductive ErrorKind where
  | syntaxError
  | unexpectedEnd
  | expectedUnsigned
  | expectedSigned
  | expectedFloat
deriving DecidableEq, Repr

/-- The walker state of `Deserializer`: the tape and the cursor `idx`. -/
structure Deserializer where
  tape : List Node
  idx : ℕ
deriving DecidableEq, Repr

/-- `Deserializer::next` (src/serde.rs:117-124): increments `idx`, then reads
`tape[idx]`; out of bounds yields `ErrorType::Syntax`.  The mutated state is
returned alongside the result because the source increments `self.idx`
before the bounds check, so the cursor moves even on failure. -/
def Deserializer.next (d : Deserializer) : Except ErrorKind Node × Deserializer :=
  let d' : Deserializer := { d with idx := d.idx + 1 }
  match d'.tape[d'.idx]? with
  | some n => (.ok n, d')
  | none => (.error .syntaxError, d')

/-- `Deserializer::peek` (src/serde.rs:126-132): reads `tape[idx + 1]`
without touching the cursor (`&self` receiver); out of bounds yields
`ErrorType::UnexpectedEnd`. -/
def Deserializer.peek (d : Deserializer) : Except ErrorKind Node × Deserializer :=
  match d.tape[d.idx + 1]? with
  | some n => (.ok n, d)
  | none => (.error .unexpectedEnd, d)

/-- Modelled from the spec: `Deserializer::next_`, the unchecked advance used
by the typed-extraction family, is not among the provided source files.  Per
the spec the typed extractors consume the next node; staying in bounds is the
caller's obligation (the source performs an unchecked read), so the claims
about the extractors carry an in-bounds hypothesis and the out-of-bounds
default here is never exercised by them. -/
def Deserializer.next_ (d : Deserializer) : Node × Deserializer :=
  let d' : Deserializer := { d with idx := d.idx + 1 }
  ((d'.tape[d'.idx]?).getD (.static .null), d')

theorem next_eq_of_get (d : Deserializer) (n : Node)
    (h : d.tape[d.idx + 1]? = some n) :
    d.next = (.ok n, { d with idx := d.idx + 1 }) := by
  simp [Deserializer.next, h]

theorem next_eq_of_oob (d : Deserializer)
    (h : d.tape[d.idx + 1]? = none) :
    d.next = (.error .syntaxError, { d with idx := d.idx + 1 }) := by
  simp [Deserializer.next, h]

/-- ASCII digit test on a byte. -/
def isDigitByte (c : ℕ) : Bool := 48 ≤ c && c ≤ 57

/-- Value of a digit run (most significant first). -/
def digitsToNat (ds : List ℕ) : ℕ := ds.foldl (fun a c => a * 10 + (c - 48)) 0

/-- Exact value of a decimal literal `int.frac e exp` (sign applied last):
`(int.frac as an integer) * 10 ^ (exp - |frac|)`. -/
def decimalValue (negative : Bool) (intDigits fracDigits : List ℕ) (exp : ℤ) : ℚ :=
  let m : ℤ := ((digitsToNat intDigits * 10 ^ fracDigits.length + digitsToNat fracDigits : ℕ) : ℤ)
  let e : ℤ := exp - fracDigits.length
  let v : ℚ := if 0 ≤ e then mkRat (m * 10 ^ e.toNat) 1 else mkRat m (10 ^ (-e).toNat)
  if negative then -v else v

/-- Parses an exponent suffix (everything after `e`/`E`): optional sign, then
a non-empty digit run consuming the rest of the input. -/
def parseExponent (r : List ℕ) : Option ℤ :=
  let (sgn, digits) : Bool × List ℕ :=
    match r with
    | 43 :: r' => (false, r')
    | 45 :: r' => (true, r')
    | _ => (false, r)
  if digits.isEmpty || !(digits.all isDigitByte) then none
  else some (if sgn then -(digitsToNat digits : ℤ) else (digitsToNat digits : ℤ))

/-- Modelled from the spec: `Deserializer::parse_number` (the number-grammar
interpreter invoked by `BorrowedNumber::parse`/`OwnedNumber::parse`) is not
among the provided source files.  Per §4.1 of the spec it interprets the raw
bytes by the JSON number grammar `-? digits (. digits)? ((e|E) (+|-)? digits)?`;
a literal with no fraction and no exponent parses as the narrowest fitting
integer (non-negative: `U64`, or `U128` on 64-bit overflow; negative: `I64`
or `I128`), a literal with a fraction or exponent parses as `F64`, and a
grammar violation or an overflow of the supported widths fails with a
number-grammar error.  The `negative` argument is the sign hint
`bytes[0] == b'-'` passed by the callers; IEEE rounding of the float result
is abstracted to the exact decimal value. -/
def parseNumber (bytes : List ℕ) (negative : Bool) : Except ErrorKind StaticNode :=
  let rest := if negative then bytes.drop 1 else bytes
  let intDigits := rest.takeWhile isDigitByte
  let r1 := rest.dropWhile isDigitByte
  if intDigits.isEmpty then .error .syntaxError
  else
    match r1 with
    | [] =>
        let v := digitsToNat intDigits
        if negative then
          if (v : ℤ) ≤ 2 ^ 63 then .ok (.i64 (-(v : ℤ)))
          else if (v : ℤ) ≤ 2 ^ 127 then .ok (.i128 (-(v : ℤ)))
          else .error .syntaxError
        else
          if v < 2 ^ 64 then .ok (.u64 v)
          else if v < 2 ^ 128 then .ok (.u128 v)
          else .error .syntaxError
    | 46 :: r2 =>
        let fracDigits := r2.takeWhile isDigitByte
        let r3 := r2.dropWhile isDigitByte
        if fracDigits.isEmpty then .error .syntaxError
        else
          match r3 with
          | [] => .ok (.f64 (.finite (decimalValue negative intDigits fracDigits 0)))
          | e :: r4 =>
              if e == 101 || e == 69 then
                match parseExponent r4 with
                | some ex => .ok (.f64 (.finite (decimalValue negative intDigits fracDigits ex)))
                | none => .error .syntaxError
              else .error .syntaxError
    | e :: r2 =>
        if e == 101 || e == 69 then
          match parseExponent r2 with
          | some ex => .ok (.f64 (.finite (decimalValue negative intDigits [] ex)))
          | none => .error .syntaxError
        else .error .syntaxError

/-- `BorrowedNumber` (src/number.rs:10-13): the raw literal bytes.  The
`Cow` borrowed/owned distinction of the byte storage has no observable
effect on the verified operations and is not represented. -/
structure BorrowedNumber where
  inner : List ℕ
deriving DecidableEq, Repr

/-- `OwnedNumber` (src/number.rs:68-71): the raw literal bytes. -/
structure OwnedNumber where
  inner : List ℕ
deriving DecidableEq, Repr

/-- `BorrowedNumber::parse` (src/number.rs:16-19):
`Deserializer::parse_number(0, &self.inner, self.inner[0] == b'-')`.
The unguarded `self.inner[0]` access is modelled explicitly: `none` is the
panic on an empty byte sequence, `some r` the call with the sign hint. -/
def BorrowedNumber.parseChecked (n : BorrowedNumber) : Option (Except ErrorKind StaticNode) :=
  match n.inner with
  | [] => none
  | b :: _ => some (parseNumber n.inner (b == 45))

/-- `OwnedNumber::parse` (src/number.rs:74-77), same shape. -/
def OwnedNumber.parseChecked (n : OwnedNumber) : Option (Except ErrorKind StaticNode) :=
  match n.inner with
  | [] => none
  | b :: _ => some (parseNumber n.inner (b == 45))

/-- `From<&[u8]> for BorrowedNumber` (src/number.rs:22-29): stores the bytes
unchanged, with no emptiness or grammar check. -/
def BorrowedNumber.fromBytes (bytes : List ℕ) : BorrowedNumber := ⟨bytes⟩

/-- `From<Vec<u8>>`/`From<&[u8]> for OwnedNumber` (src/number.rs:80-94):
stores the bytes unchanged, with no emptiness or grammar check. -/
def OwnedNumber.fromBytes (bytes : List ℕ) : OwnedNumber := ⟨bytes⟩

/-- `fmt::Display for BorrowedNumber` (src/number.rs:56-65): parses, then
formats the parsed node, or reports `fmt::Error` if the parse fails.  The
outer `Option` is the potential panic inherited from `parse`; the inner
value records whether formatting succeeds (with the node whose textual form
is emitted) or fails. -/
def BorrowedNumber.displayChecked (n : BorrowedNumber) : Option (Except Unit StaticNode) :=
  (n.parseChecked).map fun r =>
    match r with
    | .ok v => .ok v
    | .error _ => .error ()

/-- `fmt::Display for OwnedNumber` (src/number.rs:112-121), same shape. -/
def OwnedNumber.displayChecked (n : OwnedNumber) : Option (Except Unit StaticNode) :=
  (n.parseChecked).map fun r =>
    match r with
    | .ok v => .ok v
    | .error _ => .error ()

/-- `PartialEq<BorrowedNumber> for OwnedNumber` (src/number.rs:142-147):
`self.inner == *other.inner` — raw byte comparison. -/
def OwnedNumber.eqBorrowed (a : OwnedNumber) (b : BorrowedNumber) : Bool :=
  a.inner == b.inner

/-- `PartialEq<OwnedNumber> for BorrowedNumber` (src/number.rs:149-154):
`self.inner == other.inner` — raw byte comparison. -/
def BorrowedNumber.eqOwned (a : BorrowedNumber) (b : OwnedNumber) : Bool :=
  a.inner == b.inner

/-- The integer value of a numeric, integral `StaticNode`. -/
def StaticNode.intValue? : StaticNode → Option ℤ
  | .i64 n => some n
  | .u64 n => some (n : ℤ)
  | .i128 n => some n
  | .u128 n => some (n : ℤ)
  | _ => none

/-- Modelled from the spec: `PartialEq for StaticNode` lives in the external
`value_trait` dependency.  Per §4.1/§4.3 scalar equality compares parsed
numeric values: `Null`/`Bool` compare by kind and payload, the integral
kinds compare by integer value across signedness and width, floats compare
with floats by value, and a float never equals an integral node. -/
def staticEq (a b : StaticNode) : Bool :=
  match a, b with
  | .null, .null => true
  | .bool x, .bool y => x == y
  | .f64 x, .f64 y => x == y
  | a, b =>
      match a.intValue?, b.intValue? with
      | some x, some y => x == y
      | _, _ => false

/-- `PartialEq<StaticNode> for BorrowedNumber` (src/number.rs:156-165):
parse, compare the parsed node on success, `false` on a failed parse.  The
`Option` is the potential panic inherited from `parse` on empty bytes. -/
def BorrowedNumber.eqStatic (n : BorrowedNumber) (s : StaticNode) : Option Bool :=
  (n.parseChecked).map fun r =>
    match r with
    | .ok v => staticEq v s
    | .error _ => false

/-- `PartialEq<BorrowedNumber> for StaticNode` (src/number.rs:167-176). -/
def staticEqBorrowed (s : StaticNode) (n : BorrowedNumber) : Option Bool :=
  (n.parseChecked).map fun r =>
    match r with
    | .ok v => staticEq s v
    | .error _ => false

/-- `PartialEq<OwnedNumber> for StaticNode` (src/number.rs:178-187). -/
def staticEqOwned (s : StaticNode) (n : OwnedNumber) : Option Bool :=
  (n.parseChecked).map fun r =>
    match r with
    | .ok v => staticEq s v
    | .error _ => false

/-- `PartialEq<StaticNode> for OwnedNumber` (src/number.rs:189-198). -/
def OwnedNumber.eqStatic (n : OwnedNumber) (s : StaticNode) : Option Bool :=
  (n.parseChecked).map fun r =>
    match r with
    | .ok v => staticEq v s
    | .error _ => false

/-- Modelled from the external `value_trait` dependency (per the spec's
"checked narrowing conversion ... never silently truncating"):
`StaticNode::as_u64` succeeds exactly on integral nodes whose value fits
`u64`, returning that value. -/
def StaticNode.as_u64 : StaticNode → Option ℕ
  | .i64 n => if 0 ≤ n then some n.toNat else none
  | .u64 n => some n
  | .i128 n => if 0 ≤ n ∧ n < 2 ^ 64 then some n.toNat else none
  | .u128 n => if n < 2 ^ 64 then some n else none
  | _ => none

/-- `StaticNode::as_u8`: `as_u64` followed by a checked narrowing. -/
def StaticNode.as_u8 (s : StaticNode) : Option ℕ :=
  s.as_u64.bind fun v => if v < 2 ^ 8 then some v else none

/-- `StaticNode::as_u16`: `as_u64` followed by a checked narrowing. -/
def StaticNode.as_u16 (s : StaticNode) : Option ℕ :=
  s.as_u64.bind fun v => if v < 2 ^ 16 then some v else none

/-- `StaticNode::as_u32`: `as_u64` followed by a checked narrowing. -/
def StaticNode.as_u32 (s : StaticNode) : Option ℕ :=
  s.as_u64.bind fun v => if v < 2 ^ 32 then some v else none

/-- `StaticNode::as_u128`: succeeds exactly on integral, non-negative
nodes (every 128-bit payload fits). -/
def StaticNode.as_u128 : StaticNode → Option ℕ
  | .i64 n => if 0 ≤ n then some n.toNat else none
  | .u64 n => some n
  | .i128 n => if 0 ≤ n then some n.toNat else none
  | .u128 n => some n
  | _ => none

/-- The value of a numeric node as an unsigned integer: `some` exactly on
the integral, non-negative nodes.  This is the reference value the width
checks of the `parse_u*` family are measured against. -/
def StaticNode.uValue? : StaticNode → Option ℕ
  | .i64 n => if 0 ≤ n then some n.toNat else none
  | .u64 n => some n
  | .i128 n => if 0 ≤ n then some n.toNat else none
  | .u128 n => some n
  | _ => none

/-- `Deserializer::parse_u8` (src/serde.rs:136-143): consume the next node
with `next_`, require a `Static` node convertible by `as_u8`, otherwise
fail with `ErrorType::ExpectedUnsigned`. -/
def Deserializer.parse_u8 (d : Deserializer) : Except ErrorKind ℕ × Deserializer :=
  match d.next_ with
  | (.static s, d') =>
      match s.as_u8 with
      | some v => (.ok v, d')
      | none => (.error .expectedUnsigned, d')
  | (_, d') => (.error .expectedUnsigned, d')

/-- `Deserializer::parse_u16` (src/serde.rs:145-154). -/
def Deserializer.parse_u16 (d : Deserializer) : Except ErrorKind ℕ × Deserializer :=
  match d.next_ with
  | (.static s, d') =>
      match s.as_u16 with
      | some v => (.ok v, d')
      | none => (.error .expectedUnsigned, d')
  | (_, d') => (.error .expectedUnsigned, d')

/-- `Deserializer::parse_u32` (src/serde.rs:156-165). -/
def Deserializer.parse_u32 (d : Deserializer) : Except ErrorKind ℕ × Deserializer :=
  match d.next_ with
  | (.static s, d') =>
      match s.as_u32 with
      | some v => (.ok v, d')
      | none => (.error .expectedUnsigned, d')
  | (_, d') => (.error .expectedUnsigned, d')

/-- `Deserializer::parse_u64` (src/serde.rs:167-176). -/
def Deserializer.parse_u64 (d : Deserializer) : Except ErrorKind ℕ × Deserializer :=
  match d.next_ with
  | (.static s, d') =>
      match s.as_u64 with
      | some v => (.ok v, d')
      | none => (.error .expectedUnsigned, d')
  | (_, d') => (.error .expectedUnsigned, d')

/-- `Deserializer::parse_u128` (src/serde.rs:178-187). -/
def Deserializer.parse_u128 (d : Deserializer) : Except ErrorKind ℕ × Deserializer :=
  match d.next_ with
  | (.static s, d') =>
      match s.as_u128 with
      | some v => (.ok v, d')
      | none => (.error .expectedUnsigned, d')
  | (_, d') => (.error .expectedUnsigned, d')

/-- The primitive Rust cast `i64 as f64`, with IEEE rounding abstracted to
the exact value (always finite; no verified claim depends on the rounding). -/
def i64AsF64 (n : ℤ) : F64 := .finite (mkRat n 1)

/-- The primitive Rust cast `u64 as f64`, rounding abstracted likewise. -/
def u64AsF64 (n : ℕ) : F64 := .finite (mkRat n 1)

/-- `Deserializer::parse_double` (src/serde.rs:244-253): consume the next
node; a `Static` float is returned as is, a `Static` signed or unsigned
integer is widened with the primitive cast, anything else fails with
`ErrorType::ExpectedFloat`. -/
def Deserializer.parse_double (d : Deserializer) : Except ErrorKind F64 × Deserializer :=
  match d.next_ with
  | (.static (.f64 n), d') => (.ok n, d')
  | (.static (.i64 n), d') => (.ok (i64AsF64 n), d')
  | (.static (.u64 n), d') => (.ok (u64AsF64 n), d')
  | (_, d') => (.error .expectedFloat, d')

/-- Modelled from the spec: the walker's initial state (the tape producer
and `Deserializer::from_slice` are not among the provided source files).
§3: the cursor "always denotes the 'current' node already consumed" and
`next()` advances before reading, so on a fresh walker the first `next()`
must yield the first produced node: with a 0-based `usize` cursor this
places the produced nodes after a sentinel slot that `next` never reads. -/
def freshWalker (nodes : List Node) : Deserializer :=
  ⟨.static .null :: nodes, 0⟩

theorem next_u_eq (d : Deserializer) (n : Node)
    (h : d.tape[d.idx + 1]? = some n) :
    d.next_ = (n, { d with idx := d.idx + 1 }) := by
  simp [Deserializer.next_, h]

theorem as_u64_iff (s : StaticNode) (hwf : s.wf = true) (v : ℕ) :
    s.as_u64 = some v ↔ (s.uValue? = some v ∧ v < 2 ^ 64) := by
  cases s <;>
    simp [StaticNode.as_u64, StaticNode.uValue?, StaticNode.wf] at hwf ⊢ <;>
    omega

theorem as_u8_iff (s : StaticNode) (hwf : s.wf = true) (v : ℕ) :
    s.as_u8 = some v ↔ (s.uValue? = some v ∧ v < 2 ^ 8) := by
  cases s <;>
    simp [StaticNode.as_u8, StaticNode.as_u64, StaticNode.uValue?,
      StaticNode.wf, Option.bind_eq_some] at hwf ⊢ <;>
    omega

theorem as_u16_iff (s : StaticNode) (hwf : s.wf = true) (v : ℕ) :
    s.as_u16 = some v ↔ (s.uValue? = some v ∧ v < 2 ^ 16) := by
  cases s <;>
    simp [StaticNode.as_u16, StaticNode.as_u64, StaticNode.uValue?,
      StaticNode.wf, Option.bind_eq_some] at hwf ⊢ <;>
    omega

theorem as_u32_iff (s : StaticNode) (hwf : s.wf = true) (v : ℕ) :
    s.as_u32 = some v ↔ (s.uValue? = some v ∧ v < 2 ^ 32) := by
  cases s <;>
    simp [StaticNode.as_u32, StaticNode.as_u64, StaticNode.uValue?,
      StaticNode.wf, Option.bind_eq_some] at hwf ⊢ <;>
    omega

theorem as_u128_iff (s : StaticNode) (hwf : s.wf = true) (v : ℕ) :
    s.as_u128 = some v ↔ (s.uValue? = some v ∧ v < 2 ^ 128) := by
  cases s <;>
    simp [StaticNode.as_u128, StaticNode.uValue?, StaticNode.wf] at hwf ⊢ <;>
    omega

/-- C1, counterexample: advancing the walker of a one-node tape past its
end makes `next()` fail with a `Syntax` error, not with `UnexpectedEnd` as
the claim states; in particular on the tape holding exactly one
`Static(Null)` node the first `next()` returns that node and the second
fails with `Syntax`. -/
theorem C1_counterexample :
    (freshWalker [.static .null]).next.1 = .ok (.static .null) ∧
    ((freshWalker [.static .null]).next.2).next.1 = .error .syntaxError ∧
    ErrorKind.syntaxError ≠ ErrorKind.unexpectedEnd := by
  decide

/-- C1 (amended): for every tape and cursor position, if advancing the
cursor by one moves it out of the tape's bounds then `next()` fails with a
`Syntax` error (not `UnexpectedEnd`), while an in-bounds advance returns
the node at the new cursor; either way the cursor has moved by one.  On a
tape containing exactly one `Static(Null)` node the first `next()` returns
that node and the second fails with `Syntax`. -/
theorem C1_next_bounds (d : Deserializer) :
    (d.tape.length ≤ d.idx + 1 →
      d.next = (.error .syntaxError, { d with idx := d.idx + 1 })) ∧
    (∀ n, d.tape[d.idx + 1]? = some n →
      d.next = (.ok n, { d with idx := d.idx + 1 })) := by
  refine ⟨fun h => ?_, fun n h => next_eq_of_get d n h⟩
  exact next_eq_of_oob d (List.getElem?_eq_none h)

/-- C1 witness: the amended theorem at the one-`Static(Null)`-node tape. -/
theorem C1_witness :
    (freshWalker [.static .null]).next =
      (.ok (.static .null), ⟨[.static .null, .static .null], 1⟩) ∧
    (Deserializer.next ⟨[.static .null, .static .null], 1⟩) =
      (.error .syntaxError, ⟨[.static .null, .static .null], 2⟩) :=
  ⟨(C1_next_bounds (freshWalker [.static .null])).2 (.static .null) (by decide),
   (C1_next_bounds ⟨[.static .null, .static .null], 1⟩).1 (by decide)⟩

/-- C4: `peek()` returns the node at `cursor + 1` and leaves the walker
state (cursor and tape) unchanged whether it succeeds or fails; when
`cursor + 1` is out of the tape's bounds it returns an `UnexpectedEnd`
error rather than exhibiting undefined behavior. -/
theorem C4_peek (d : Deserializer) :
    ((d.peek).2 = d) ∧
    (∀ n, d.tape[d.idx + 1]? = some n → (d.peek).1 = .ok n) ∧
    (d.tape.length ≤ d.idx + 1 → (d.peek).1 = .error .unexpectedEnd) := by
  refine ⟨?_, fun n h => ?_, fun h => ?_⟩
  · unfold Deserializer.peek
    cases d.tape[d.idx + 1]? <;> rfl
  · simp [Deserializer.peek, h]
  · simp [Deserializer.peek, List.getElem?_eq_none h]

/-- C4 witness: `peek` at a concrete in-bounds walker and at a concrete
out-of-bounds walker. -/
theorem C4_witness :
    ((Deserializer.peek ⟨[.static .null, .string "a"], 0⟩).1 = .ok (.string "a") ∧
      (Deserializer.peek ⟨[.static .null, .string "a"], 0⟩).2 =
        ⟨[.static .null, .string "a"], 0⟩) ∧
    (Deserializer.peek ⟨[.static .null], 0⟩).1 = .error .unexpectedEnd :=
  ⟨⟨(C4_peek ⟨[.static .null, .string "a"], 0⟩).2.1 (.string "a") (by decide),
    (C4_peek ⟨[.static .null, .string "a"], 0⟩).1⟩,
   (C4_peek ⟨[.static .null], 0⟩).2.2 (by decide)⟩

/-- C5: `parse_double()` consumes the next node (the cursor advances by
one) and returns the float itself for `Static(F64)`, the integer widened to
floating point for `Static(I64)`/`Static(U64)`, and an `ExpectedFloat`
error for every other node kind. -/
theorem C5_parse_double (d : Deserializer) (node : Node)
    (h : d.tape[d.idx + 1]? = some node) :
    (∀ f, node = .static (.f64 f) →
      d.parse_double = (.ok f, { d with idx := d.idx + 1 })) ∧
    (∀ n : ℤ, node = .static (.i64 n) →
      d.parse_double = (.ok (i64AsF64 n), { d with idx := d.idx + 1 })) ∧
    (∀ n : ℕ, node = .static (.u64 n) →
      d.parse_double = (.ok (u64AsF64 n), { d with idx := d.idx + 1 })) ∧
    ((∀ f, node ≠ .static (.f64 f)) → (∀ n : ℤ, node ≠ .static (.i64 n)) →
      (∀ n : ℕ, node ≠ .static (.u64 n)) →
      d.parse_double = (.error .expectedFloat, { d with idx := d.idx + 1 })) := by
  have hn := next_u_eq d node h
  refine ⟨fun f hf => ?_, fun n hi => ?_, fun n hu => ?_, fun h1 h2 h3 => ?_⟩
  · subst hf; simp [Deserializer.parse_double, hn]
  · subst hi; simp [Deserializer.parse_double, hn]
  · subst hu; simp [Deserializer.parse_double, hn]
  · unfold Deserializer.parse_double
    rw [hn]
    match node, h1, h2, h3 with
    | .static .null, _, _, _ => rfl
    | .static (.bool b), _, _, _ => rfl
    | .static (.i64 n), _, h2, _ => exact absurd rfl (h2 n)
    | .static (.u64 n), _, _, h3 => exact absurd rfl (h3 n)
    | .static (.f64 f), h1, _, _ => exact absurd rfl (h1 f)
    | .static (.i128 n), _, _, _ => rfl
    | .static (.u128 n), _, _, _ => rfl
    | .string s, _, _, _ => rfl
    | .arrayStart e, _, _, _ => rfl
    | .objectStart e, _, _, _ => rfl

/-- C5 witness: `parse_double` at concrete walkers holding a float, a
signed integer, an unsigned integer, and a string node. -/
theorem C5_witness :
    (Deserializer.parse_double ⟨[.static .null, .static (.f64 (.finite 1))], 0⟩).1 =
      .ok (.finite 1) ∧
    (Deserializer.parse_double ⟨[.static .null, .static (.i64 (-3))], 0⟩).1 =
      .ok (i64AsF64 (-3)) ∧
    (Deserializer.parse_double ⟨[.static .null, .static (.u64 7)], 0⟩).1 =
      .ok (u64AsF64 7) ∧
    (Deserializer.parse_double ⟨[.static .null, .string "a"], 0⟩).1 =
      .error .expectedFloat := by
  refine ⟨?_, ?_, ?_, ?_⟩
  · rw [(C5_parse_double ⟨[.static .null, .static (.f64 (.finite 1))], 0⟩
      (.static (.f64 (.finite 1))) (by decide)).1 (.finite 1) rfl]
  · rw [(C5_parse_double ⟨[.static .null, .static (.i64 (-3))], 0⟩
      (.static (.i64 (-3))) (by decide)).2.1 (-3) rfl]
  · rw [(C5_parse_double ⟨[.static .null, .static (.u64 7)], 0⟩
      (.static (.u64 7)) (by decide)).2.2.1 7 rfl]
  · rw [(C5_parse_double ⟨[.static .null, .string "a"], 0⟩
      (.string "a") (by decide)).2.2.2 (fun f h => nomatch h) (fun n h => nomatch h)
      (fun n h => nomatch h)]

theorem parseU_spec (s : StaticNode) (d' : Deserializer)
    (pres : Except ErrorKind ℕ × Deserializer) (asF : Option ℕ) (W : ℕ)
    (hp : pres = match asF with
      | some v => (.ok v, d')
      | none => (.error .expectedUnsigned, d'))
    (hiff : ∀ v, asF = some v ↔ (s.uValue? = some v ∧ v < W)) :
    (∀ v, pres.1 = .ok v ↔ (s.uValue? = some v ∧ v < W)) ∧
    (∀ e, pres.1 = .error e → e = .expectedUnsigned) := by
  cases asF with
  | some v' =>
      subst hp
      refine ⟨fun v => ⟨fun hv => ?_, fun hr => ?_⟩, fun e he => ?_⟩
      · have hv' : v' = v := by simpa using hv
        exact (hiff v).1 (by rw [hv'])
      · have := (hiff v).2 hr
        simpa using this
      · simp at he
  | none =>
      subst hp
      refine ⟨fun v => ⟨fun hv => ?_, fun hr => ?_⟩, fun e he => ?_⟩
      · simp at hv
      · have := (hiff v).2 hr
        simp at this
      · simpa using he.symm

/-- C6: each of `parse_u8/u16/u32/u64/u128` consumes the next node and
fails with an `ExpectedUnsigned` error whenever that node is not an
integral `Static` node, or its value is negative, or its value exceeds the
target width; it succeeds exactly when the node's non-negative integer
value fits the width, returning that value unchanged (no silent
truncation), and every failure carries the `ExpectedUnsigned` kind.  In
particular `parse_u8` on `Static(I64(300))` fails with `ExpectedUnsigned`
even though the node is numeric. -/
theorem C6_parse_unsigned (d : Deserializer) (node : Node)
    (h : d.tape[d.idx + 1]? = some node) :
    (∀ s, node = .static s → s.wf = true →
      ((∀ v, (d.parse_u8).1 = .ok v ↔ (s.uValue? = some v ∧ v < 2 ^ 8)) ∧
        (∀ e, (d.parse_u8).1 = .error e → e = .expectedUnsigned)) ∧
      ((∀ v, (d.parse_u16).1 = .ok v ↔ (s.uValue? = some v ∧ v < 2 ^ 16)) ∧
        (∀ e, (d.parse_u16).1 = .error e → e = .expectedUnsigned)) ∧
      ((∀ v, (d.parse_u32).1 = .ok v ↔ (s.uValue? = some v ∧ v < 2 ^ 32)) ∧
        (∀ e, (d.parse_u32).1 = .error e → e = .expectedUnsigned)) ∧
      ((∀ v, (d.parse_u64).1 = .ok v ↔ (s.uValue? = some v ∧ v < 2 ^ 64)) ∧
        (∀ e, (d.parse_u64).1 = .error e → e = .expectedUnsigned)) ∧
      ((∀ v, (d.parse_u128).1 = .ok v ↔ (s.uValue? = some v ∧ v < 2 ^ 128)) ∧
        (∀ e, (d.parse_u128).1 = .error e → e = .expectedUnsigned))) ∧
    ((∀ s, node ≠ .static s) →
      (d.parse_u8).1 = .error .expectedUnsigned ∧
      (d.parse_u16).1 = .error .expectedUnsigned ∧
      (d.parse_u32).1 = .error .expectedUnsigned ∧
      (d.parse_u64).1 = .error .expectedUnsigned ∧
      (d.parse_u128).1 = .error .expectedUnsigned) := by
  have hn := next_u_eq d node h
  constructor
  · rintro s rfl hwf
    have h8 : d.parse_u8 = (match s.as_u8 with
        | some v => (.ok v, { d with idx := d.idx + 1 })
        | none => (.error .expectedUnsigned, { d with idx := d.idx + 1 })) := by
      unfold Deserializer.parse_u8
      rw [hn]
    have h16 : d.parse_u16 = (match s.as_u16 with
        | some v => (.ok v, { d with idx := d.idx + 1 })
        | none => (.error .expectedUnsigned, { d with idx := d.idx + 1 })) := by
      unfold Deserializer.parse_u16
      rw [hn]
    have h32 : d.parse_u32 = (match s.as_u32 with
        | some v => (.ok v, { d with idx := d.idx + 1 })
        | none => (.error .expectedUnsigned, { d with idx := d.idx + 1 })) := by
      unfold Deserializer.parse_u32
      rw [hn]
    have h64 : d.parse_u64 = (match s.as_u64 with
        | some v => (.ok v, { d with idx := d.idx + 1 })
        | none => (.error .expectedUnsigned, { d with idx := d.idx + 1 })) := by
      unfold Deserializer.parse_u64
      rw [hn]
    have h128 : d.parse_u128 = (match s.as_u128 with
        | some v => (.ok v, { d with idx := d.idx + 1 })
        | none => (.error .expectedUnsigned, { d with idx := d.idx + 1 })) := by
      unfold Deserializer.parse_u128
      rw [hn]
    exact ⟨parseU_spec s _ _ _ _ h8 (as_u8_iff s hwf),
      parseU_spec s _ _ _ _ h16 (as_u16_iff s hwf),
      parseU_spec s _ _ _ _ h32 (as_u32_iff s hwf),
      parseU_spec s _ _ _ _ h64 (as_u64_iff s hwf),
      parseU_spec s _ _ _ _ h128 (as_u128_iff s hwf)⟩
  · intro hns
    unfold Deserializer.parse_u8 Deserializer.parse_u16 Deserializer.parse_u32
      Deserializer.parse_u64 Deserializer.parse_u128
    rw [hn]
    match node, hns with
    | .string s, _ => exact ⟨rfl, rfl, rfl, rfl, rfl⟩
    | .arrayStart e, _ => exact ⟨rfl, rfl, rfl, rfl, rfl⟩
    | .objectStart e, _ => exact ⟨rfl, rfl, rfl, rfl, rfl⟩
    | .static s, hns => exact absurd rfl (hns s)

/-- C6 witness: `parse_u8` on a `Static(I64(300))` node fails with
`ExpectedUnsigned`; `parse_u64` on the same node succeeds with 300; the
five extractors all fail with `ExpectedUnsigned` on a string node. -/
theorem C6_witness :
    (Deserializer.parse_u8 ⟨[.static .null, .static (.i64 300)], 0⟩).1 =
      .error .expectedUnsigned ∧
    (Deserializer.parse_u64 ⟨[.static .null, .static (.i64 300)], 0⟩).1 =
      .ok 300 ∧
    (Deserializer.parse_u128 ⟨[.static .null, .string "a"], 0⟩).1 =
      .error .expectedUnsigned := by
  have hm := C6_parse_unsigned ⟨[.static .null, .static (.i64 300)], 0⟩
    (.static (.i64 300)) (by decide)
  have hs := (hm.1 (.i64 300) rfl (by decide))
  refine ⟨?_, ?_, ?_⟩
  · cases hv : (Deserializer.parse_u8 ⟨[.static .null, .static (.i64 300)], 0⟩).1 with
    | ok v =>
        have := (hs.1.1 v).1 hv
        simp [StaticNode.uValue?] at this
        omega
    | error e => rw [hs.1.2 e hv]
  · exact (hs.2.2.2.1.1 300).2 (by decide)
  · exact ((C6_parse_unsigned ⟨[.static .null, .string "a"], 0⟩ (.string "a")
      (by decide)).2 (fun s h => nomatch h)).2.2.2.2

/-- C2, counterexample: the literals `"1.0"` and `"1e0"` parse to the same
`StaticNode`, yet cross-mode equality between an `OwnedNumber` and a
`BorrowedNumber` declares them unequal in both directions, because the
source compares raw literal bytes, not parsed values. -/
theorem C2_counterexample :
    (OwnedNumber.fromBytes [49, 46, 48]).eqBorrowed
      (BorrowedNumber.fromBytes [49, 101, 48]) = false ∧
    (BorrowedNumber.fromBytes [49, 101, 48]).eqOwned
      (OwnedNumber.fromBytes [49, 46, 48]) = false ∧
    (OwnedNumber.fromBytes [49, 46, 48]).parseChecked =
      some (.ok (.f64 (.finite 1))) ∧
    (BorrowedNumber.fromBytes [49, 101, 48]).parseChecked =
      some (.ok (.f64 (.finite 1))) ∧
    staticEq (.f64 (.finite 1)) (.f64 (.finite 1)) = true := by
  decide

/-- C2 (amended): equality between a `BorrowedNumber` and an `OwnedNumber`
(in either direction) compares the raw literal bytes, not the parsed
values: it holds exactly when the byte sequences coincide, so two
different spellings of the same number compare unequal across modes. -/
theorem C2_cross_mode_eq_bytes (a : OwnedNumber) (b : BorrowedNumber) :
    (a.eqBorrowed b = true ↔ a.inner = b.inner) ∧
    (b.eqOwned a = true ↔ b.inner = a.inner) := by
  constructor <;> simp [OwnedNumber.eqBorrowed, BorrowedNumber.eqOwned]

/-- C3: for numbers whose `parse()` fails, equality with any `StaticNode`
returns `false` in either direction and for both ownership modes; the
comparison neither panics (the result is `some`) nor surfaces the parse
error. -/
theorem C3_failed_parse_eq_false (b : BorrowedNumber) (o : OwnedNumber)
    (s : StaticNode) (eb eo : ErrorKind)
    (hb : b.parseChecked = some (.error eb))
    (ho : o.parseChecked = some (.error eo)) :
    b.eqStatic s = some false ∧ staticEqBorrowed s b = some false ∧
    o.eqStatic s = some false ∧ staticEqOwned s o = some false := by
  simp [BorrowedNumber.eqStatic, staticEqBorrowed, OwnedNumber.eqStatic,
    staticEqOwned, hb, ho]

/-- C3 witness: the literal `"x"` fails to parse, and comparing it with the
`Null` node yields `false` both ways in both modes. -/
theorem C3_witness :
    (BorrowedNumber.fromBytes [120]).parseChecked = some (.error .syntaxError) ∧
    (OwnedNumber.fromBytes [120]).parseChecked = some (.error .syntaxError) ∧
    (BorrowedNumber.fromBytes [120]).eqStatic .null = some false ∧
    staticEqBorrowed .null (BorrowedNumber.fromBytes [120]) = some false ∧
    (OwnedNumber.fromBytes [120]).eqStatic .null = some false ∧
    staticEqOwned .null (OwnedNumber.fromBytes [120]) = some false := by
  have h := C3_failed_parse_eq_false (BorrowedNumber.fromBytes [120])
    (OwnedNumber.fromBytes [120]) .null .syntaxError .syntaxError (by decide) (by decide)
  exact ⟨by decide, by decide, h.1, h.2.1, h.2.2.1, h.2.2.2⟩

/-- C10: the `From` constructors store the bytes unchanged and perform no
emptiness or grammar check (they are total, also on empty or ill-formed
input); under the non-empty invariant the unguarded first-byte access of
`parse()` is in bounds, so `parse()` — and `Display`, which delegates to
it — never panics on that access (the checked models return `some`). -/
theorem C10_nonempty_no_panic (bytes : List ℕ) :
    ((BorrowedNumber.fromBytes bytes).inner = bytes ∧
      (OwnedNumber.fromBytes bytes).inner = bytes) ∧
    (bytes ≠ [] →
      (BorrowedNumber.fromBytes bytes).parseChecked.isSome = true ∧
      (OwnedNumber.fromBytes bytes).parseChecked.isSome = true ∧
      (BorrowedNumber.fromBytes bytes).displayChecked.isSome = true ∧
      (OwnedNumber.fromBytes bytes).displayChecked.isSome = true) := by
  refine ⟨⟨rfl, rfl⟩, fun h => ?_⟩
  match bytes, h with
  | b :: rest, _ =>
    simp [BorrowedNumber.fromBytes, OwnedNumber.fromBytes,
      BorrowedNumber.parseChecked, OwnedNumber.parseChecked,
      BorrowedNumber.displayChecked, OwnedNumber.displayChecked]

/-- C10 witness: the single-byte literal `"0"`. -/
theorem C10_witness :
    (BorrowedNumber.fromBytes [48]).inner = [48] ∧
    (BorrowedNumber.fromBytes [48]).parseChecked.isSome = true ∧
    (OwnedNumber.fromBytes [48]).displayChecked.isSome = true :=
  ⟨(C10_nonempty_no_panic [48]).1.1,
   ((C10_nonempty_no_panic [48]).2 (by decide)).1,
   ((C10_nonempty_no_panic [48]).2 (by decide)).2.2.2⟩

/-- The interop conversion error family, `SerdeConversionError`
(src/serde.rs:26-33). -/
inductive SerdeConversionError where
  | nanOrInfinity
  | numberOutOfBounds
  | oops
deriving DecidableEq, Repr

/-- Model of the external `serde_json::Number`: a 64-bit-backed integer
(non-negative `posInt`, negative `negInt`), a finite double, or `big` —
modelled from the spec's "unbounded-precision integers": an external
number that none of the three 64-bit/float probes can produce, which the
spec classifies as only reachable through a contract violation of the
external type. -/
inductive SJNumber where
  | posInt (n : ℕ)
  | negInt (n : ℤ)
  | float (f : F64)
  | big
deriving DecidableEq, Repr

/-- `serde_json::Number::as_i64`. -/
def SJNumber.asI64 : SJNumber → Option ℤ
  | .posInt n => if n < 2 ^ 63 then some (n : ℤ) else none
  | .negInt n => some n
  | _ => none

/-- `serde_json::Number::as_u64`. -/
def SJNumber.asU64 : SJNumber → Option ℕ
  | .posInt n => some n
  | .negInt n => if 0 ≤ n then some n.toNat else none
  | _ => none

/-- `serde_json::Number::as_f64` (the primitive int-to-double casts are
abstracted to exact values, as in `i64AsF64`). -/
def SJNumber.asF64 : SJNumber → Option F64
  | .posInt n => some (u64AsF64 n)
  | .negInt n => some (i64AsF64 n)
  | .float f => some f
  | .big => none

/-- `serde_json::Number::from::<i64>`: a non-negative value is stored
unsigned. -/
def SJNumber.fromI64 (n : ℤ) : SJNumber :=
  if 0 ≤ n then .posInt n.toNat else .negInt n

/-- `serde_json::Number::from::<u64>`. -/
def SJNumber.fromU64 (n : ℕ) : SJNumber := .posInt n

/-- `serde_json::Number::from_f64`: `some` exactly on finite doubles. -/
def SJNumber.fromF64? (f : F64) : Option SJNumber :=
  if f.isFinite then some (.float f) else none

/-- Model of the external `serde_json::Value`.  Objects are kept in the
source's iteration order (the spec fixes object key order to the external
source's iteration order). -/
inductive JValue where
  | null
  | bool (b : Bool)
  | number (n : SJNumber)
  | string (s : String)
  | array (a : List JValue)
  | object (o : List (String × JValue))
deriving Repr

/-- The Owned `ValueTree` (`OwnedValue`), as matched by the conversion code
in src/serde.rs:287-328: a `Static` scalar, a string, an ordered array, or
an insertion-ordered object.  Modelled from the spec for the parts outside
src/ (the value module): recursive generic value representation with
ordered sequences and ordered-by-insertion string-keyed mappings. -/
inductive OwnedValue where
  | static (s : StaticNode)
  | string (s : String)
  | array (a : List OwnedValue)
  | object (o : List (String × OwnedValue))
deriving Repr

mutual

/-- `TryInto<serde_json::Value> for OwnedValue` (src/serde.rs:287-328):
null/bool/string map directly, 64-bit integers map via `Number::from`,
128-bit integers narrow checked to 64-bit or fail with
`NumberOutOfBounds`, floats go through `Number::from_f64` or fail with
`NanOrInfinity`, containers recurse in order. -/
def exportValue : OwnedValue → Except SerdeConversionError JValue
  | .static .null => .ok .null
  | .static (.bool b) => .ok (.bool b)
  | .static (.i64 n) => .ok (.number (SJNumber.fromI64 n))
  | .static (.i128 n) =>
      if -(2 ^ 63) ≤ n ∧ n < 2 ^ 63 then .ok (.number (SJNumber.fromI64 n))
      else .error .numberOutOfBounds
  | .static (.u64 n) => .ok (.number (SJNumber.fromU64 n))
  | .static (.u128 n) =>
      if n < 2 ^ 64 then .ok (.number (SJNumber.fromU64 n))
      else .error .numberOutOfBounds
  | .static (.f64 f) =>
      match SJNumber.fromF64? f with
      | some m => .ok (.number m)
      | none => .error .nanOrInfinity
  | .string s => .ok (.string s)
  | .array a => do .ok (.array (← exportList a))
  | .object o => do .ok (.object (← exportObject o))

/-- The element-wise `collect::<ConvertResult<Vec<_>>>` of the array arm:
first failure short-circuits. -/
def exportList : List OwnedValue → Except SerdeConversionError (List JValue)
  | [] => .ok []
  | v :: vs => do
      let j ← exportValue v
      let js ← exportList vs
      .ok (j :: js)

/-- The pair-wise `collect` of the object arm: first failure
short-circuits, key order preserved. -/
def exportObject :
    List (String × OwnedValue) → Except SerdeConversionError (List (String × JValue))
  | [] => .ok []
  | (k, v) :: ps => do
      let j ← exportValue v
      let js ← exportObject ps
      .ok ((k, j) :: js)

end

mutual

/-- `TryFrom<serde_json::Value> for OwnedValue` (src/serde.rs:256-285):
null/bool/string map directly; a number probes `as_i64`, then `as_u64`,
then `as_f64`, and fails with `Oops` when all three decline; containers
recurse in order, first failure short-circuits. -/
def importValue : JValue → Except SerdeConversionError OwnedValue
  | .null => .ok (.static .null)
  | .bool b => .ok (.static (.bool b))
  | .number b =>
      match b.asI64 with
      | some n => .ok (.static (.i64 n))
      | none =>
          match b.asU64 with
          | some n => .ok (.static (.u64 n))
          | none =>
              match b.asF64 with
              | some n => .ok (.static (.f64 n))
              | none => .error .oops
  | .string s => .ok (.string s)
  | .array a => do .ok (.array (← importList a))
  | .object o => do .ok (.object (← importObject o))

/-- Array arm `collect`: first failure short-circuits. -/
def importList : List JValue → Except SerdeConversionError (List OwnedValue)
  | [] => .ok []
  | v :: vs => do
      let j ← importValue v
      let js ← importList vs
      .ok (j :: js)

/-- Object arm `collect`: first failure short-circuits, key order
preserved. -/
def importObject :
    List (String × JValue) → Except SerdeConversionError (List (String × OwnedValue))
  | [] => .ok []
  | (k, v) :: ps => do
      let j ← importValue v
      let js ← importObject ps
      .ok ((k, j) :: js)

end

mutual

/-- Does some `Static` scalar of the tree satisfy `p`? -/
def anyStatic (p : StaticNode → Bool) : OwnedValue → Bool
  | .static s => p s
  | .string _ => false
  | .array a => anyStaticList p a
  | .object o => anyStaticObject p o

def anyStaticList (p : StaticNode → Bool) : List OwnedValue → Bool
  | [] => false
  | v :: vs => anyStatic p v || anyStaticList p vs

def anyStaticObject (p : StaticNode → Bool) : List (String × OwnedValue) → Bool
  | [] => false
  | (_, v) :: ps => anyStatic p v || anyStaticObject p ps

end

/-- A float scalar that is `NaN` or `±∞`. -/
def nonFiniteS : StaticNode → Bool
  | .f64 f => !f.isFinite
  | _ => false

/-- A 128-bit integer scalar that does not fit losslessly in the
corresponding 64-bit type. -/
def bad128S : StaticNode → Bool
  | .i128 n => !((-(2 ^ 63) ≤ n) && (n < 2 ^ 63))
  | .u128 n => !(n < 2 ^ 64)
  | _ => false

mutual

/-- Structural tree equality with the §4.1 scalar semantics (`staticEq`
on scalars, order-sensitive containers, exact strings). -/
def valueEq : OwnedValue → OwnedValue → Bool
  | .static a, .static b => staticEq a b
  | .string a, .string b => a == b
  | .array a, .array b => valueEqList a b
  | .object a, .object b => valueEqObject a b
  | _, _ => false

def valueEqList : List OwnedValue → List OwnedValue → Bool
  | [], [] => true
  | a :: as', b :: bs' => valueEq a b && valueEqList as' bs'
  | _, _ => false

def valueEqObject :
    List (String × OwnedValue) → List (String × OwnedValue) → Bool
  | [], [] => true
  | (ka, a) :: as', (kb, b) :: bs' => ka == kb && valueEq a b && valueEqObject as' bs'
  | _, _ => false

end

theorem export_array_def (a : List OwnedValue) :
    exportValue (.array a) = match exportList a with
      | .ok js => .ok (.array js)
      | .error e => .error e := by
  cases h : exportList a <;> simp [exportValue, h, Bind.bind, Except.bind]

theorem export_object_def (o : List (String × OwnedValue)) :
    exportValue (.object o) = match exportObject o with
      | .ok js => .ok (.object js)
      | .error e => .error e := by
  cases h : exportObject o <;> simp [exportValue, h, Bind.bind, Except.bind]

theorem exportList_cons_def (v : OwnedValue) (vs : List OwnedValue) :
    exportList (v :: vs) = match exportValue v with
      | .ok j => (match exportList vs with
          | .ok js => .ok (j :: js)
          | .error e => .error e)
      | .error e => .error e := by
  cases h : exportValue v <;> cases h' : exportList vs <;>
    simp [exportList, h, h', Bind.bind, Except.bind]

theorem exportObject_cons_def (k : String) (v : OwnedValue)
    (ps : List (String × OwnedValue)) :
    exportObject ((k, v) :: ps) = match exportValue v with
      | .ok j => (match exportObject ps with
          | .ok js => .ok ((k, j) :: js)
          | .error e => .error e)
      | .error e => .error e := by
  cases h : exportValue v <;> cases h' : exportObject ps <;>
    simp [exportObject, h, h', Bind.bind, Except.bind]

theorem import_array_def (a : List JValue) :
    importValue (.array a) = match importList a with
      | .ok vs => .ok (.array vs)
      | .error e => .error e := by
  cases h : importList a <;> simp [importValue, h, Bind.bind, Except.bind]

theorem import_object_def (o : List (String × JValue)) :
    importValue (.object o) = match importObject o with
      | .ok vs => .ok (.object vs)
      | .error e => .error e := by
  cases h : importObject o <;> simp [importValue, h, Bind.bind, Except.bind]

theorem importList_cons_def (v : JValue) (vs : List JValue) :
    importList (v :: vs) = match importValue v with
      | .ok j => (match importList vs with
          | .ok js => .ok (j :: js)
          | .error e => .error e)
      | .error e => .error e := by
  cases h : importValue v <;> cases h' : importList vs <;>
    simp [importList, h, h', Bind.bind, Except.bind]

theorem importObject_cons_def (k : String) (v : JValue)
    (ps : List (String × JValue)) :
    importObject ((k, v) :: ps) = match importValue v with
      | .ok j => (match importObject ps with
          | .ok js => .ok ((k, j) :: js)
          | .error e => .error e)
      | .error e => .error e := by
  cases h : importValue v <;> cases h' : importObject ps <;>
    simp [importObject, h, h', Bind.bind, Except.bind]

/-- C8: importing an external number probes, in order, the signed-64,
unsigned-64 and float representations, producing a `Static` node of the
first that succeeds; when all three decline the conversion fails with the
`Oops` (internal-defect) error, which is distinct from the `NanOrInfinity`
and `NumberOutOfBounds` errors. -/
theorem C8_import_number (n : SJNumber) :
    (∀ i, n.asI64 = some i → importValue (.number n) = .ok (.static (.i64 i))) ∧
    (n.asI64 = none → ∀ u, n.asU64 = some u →
      importValue (.number n) = .ok (.static (.u64 u))) ∧
    (n.asI64 = none → n.asU64 = none → ∀ f, n.asF64 = some f →
      importValue (.number n) = .ok (.static (.f64 f))) ∧
    (n.asI64 = none → n.asU64 = none → n.asF64 = none →
      importValue (.number n) = .error .oops) ∧
    (SerdeConversionError.oops ≠ .nanOrInfinity ∧
      SerdeConversionError.oops ≠ .numberOutOfBounds) := by
  refine ⟨fun i hi => ?_, fun h1 u hu => ?_, fun h1 h2 f hf => ?_,
    fun h1 h2 h3 => ?_, by decide, by decide⟩
  · simp [importValue, hi]
  · simp [importValue, h1, hu]
  · simp [importValue, h1, h2, hf]
  · simp [importValue, h1, h2, h3]

/-- C8 witness: a contract-violating external number (no probe succeeds)
fails with `Oops`; a small non-negative number takes the signed-64 probe
first. -/
theorem C8_witness :
    importValue (.number .big) = .error .oops ∧
    importValue (.number (.posInt 5)) = .ok (.static (.i64 5)) :=
  ⟨(C8_import_number .big).2.2.2.1 rfl rfl rfl,
   (C8_import_number (.posInt 5)).1 5 (by decide)⟩

mutual

theorem exportValue_err (v : OwnedValue) (e : SerdeConversionError)
    (h : exportValue v = .error e) :
    (e = .nanOrInfinity ∧ anyStatic nonFiniteS v = true) ∨
    (e = .numberOutOfBounds ∧ anyStatic bad128S v = true) := by
  cases v with
  | static s =>
      cases s with
      | null => simp [exportValue] at h
      | bool b => simp [exportValue] at h
      | i64 n => simp [exportValue] at h
      | u64 n => simp [exportValue] at h
      | f64 f =>
          cases f with
          | finite q => simp [exportValue, SJNumber.fromF64?, F64.isFinite] at h
          | nan =>
              left
              simp [exportValue, SJNumber.fromF64?, F64.isFinite] at h
              exact ⟨h.symm, by simp [anyStatic, nonFiniteS, F64.isFinite]⟩
          | inf =>
              left
              simp [exportValue, SJNumber.fromF64?, F64.isFinite] at h
              exact ⟨h.symm, by simp [anyStatic, nonFiniteS, F64.isFinite]⟩
          | negInf =>
              left
              simp [exportValue, SJNumber.fromF64?, F64.isFinite] at h
              exact ⟨h.symm, by simp [anyStatic, nonFiniteS, F64.isFinite]⟩
      | i128 n =>
          simp only [exportValue] at h
          split at h
          · simp at h
          · right
            rename_i hb
            simp only [Except.error.injEq] at h
            refine ⟨h.symm, ?_⟩
            simp [anyStatic, bad128S]
            omega
      | u128 n =>
          simp only [exportValue] at h
          split at h
          · simp at h
          · right
            rename_i hb
            simp only [Except.error.injEq] at h
            refine ⟨h.symm, ?_⟩
            simp [anyStatic, bad128S]
            omega
  | string s => simp [exportValue] at h
  | array a =>
      rw [export_array_def] at h
      cases hx : exportList a with
      | ok js => rw [hx] at h; simp at h
      | error e' =>
          rw [hx] at h
          simp at h
          subst h
          have := exportList_err a e' hx
          simpa [anyStatic] using this
  | object o =>
      rw [export_object_def] at h
      cases hx : exportObject o with
      | ok js => rw [hx] at h; simp at h
      | error e' =>
          rw [hx] at h
          simp at h
          subst h
          have := exportObject_err o e' hx
          simpa [anyStatic] using this

theorem exportList_err (l : List OwnedValue) (e : SerdeConversionError)
    (h : exportList l = .error e) :
    (e = .nanOrInfinity ∧ anyStaticList nonFiniteS l = true) ∨
    (e = .numberOutOfBounds ∧ anyStaticList bad128S l = true) := by
  cases l with
  | nil => simp [exportList] at h
  | cons v vs =>
      rw [exportList_cons_def] at h
      cases hv : exportValue v with
      | ok j =>
          rw [hv] at h
          cases hvs : exportList vs with
          | ok js => rw [hvs] at h; simp at h
          | error e' =>
              rw [hvs] at h
              simp at h
              subst h
              rcases exportList_err vs e' hvs with ⟨he, ha⟩ | ⟨he, ha⟩
              · exact Or.inl ⟨he, by simp [anyStaticList, ha]⟩
              · exact Or.inr ⟨he, by simp [anyStaticList, ha]⟩
      | error e' =>
          rw [hv] at h
          simp at h
          subst h
          rcases exportValue_err v e' hv with ⟨he, ha⟩ | ⟨he, ha⟩
          · exact Or.inl ⟨he, by simp [anyStaticList, ha]⟩
          · exact Or.inr ⟨he, by simp [anyStaticList, ha]⟩

theorem exportObject_err (l : List (String × OwnedValue)) (e : SerdeConversionError)
    (h : exportObject l = .error e) :
    (e = .nanOrInfinity ∧ anyStaticObject nonFiniteS l = true) ∨
    (e = .numberOutOfBounds ∧ anyStaticObject bad128S l = true) := by
  cases l with
  | nil => simp [exportObject] at h
  | cons p ps =>
      obtain ⟨k, v⟩ := p
      rw [exportObject_cons_def] at h
      cases hv : exportValue v with
      | ok j =>
          rw [hv] at h
          cases hps : exportObject ps with
          | ok js => rw [hps] at h; simp at h
          | error e' =>
              rw [hps] at h
              simp at h
              subst h
              rcases exportObject_err ps e' hps with ⟨he, ha⟩ | ⟨he, ha⟩
              · exact Or.inl ⟨he, by simp [anyStaticObject, ha]⟩
              · exact Or.inr ⟨he, by simp [anyStaticObject, ha]⟩
      | error e' =>
          rw [hv] at h
          simp at h
          subst h
          rcases exportValue_err v e' hv with ⟨he, ha⟩ | ⟨he, ha⟩
          · exact Or.inl ⟨he, by simp [anyStaticObject, ha]⟩
          · exact Or.inr ⟨he, by simp [anyStaticObject, ha]⟩

end

mutual

theorem exportValue_ok_clean (v : OwnedValue) (j : JValue)
    (h : exportValue v = .ok j) :
    anyStatic nonFiniteS v = false ∧ anyStatic bad128S v = false := by
  cases v with
  | static s =>
      cases s with
      | null => simp [anyStatic, nonFiniteS, bad128S]
      | bool b => simp [anyStatic, nonFiniteS, bad128S]
      | i64 n => simp [anyStatic, nonFiniteS, bad128S]
      | u64 n => simp [anyStatic, nonFiniteS, bad128S]
      | f64 f =>
          cases f with
          | finite q => simp [anyStatic, nonFiniteS, bad128S, F64.isFinite]
          | nan => simp [exportValue, SJNumber.fromF64?, F64.isFinite] at h
          | inf => simp [exportValue, SJNumber.fromF64?, F64.isFinite] at h
          | negInf => simp [exportValue, SJNumber.fromF64?, F64.isFinite] at h
      | i128 n =>
          simp only [exportValue] at h
          split at h
          · rename_i hb
            simp [anyStatic, nonFiniteS, bad128S]
            omega
          · simp at h
      | u128 n =>
          simp only [exportValue] at h
          split at h
          · rename_i hb
            simp [anyStatic, nonFiniteS, bad128S]
            omega
          · simp at h
  | string s => simp [anyStatic]
  | array a =>
      rw [export_array_def] at h
      cases hx : exportList a with
      | ok js =>
          have := exportList_ok_clean a js hx
          simpa [anyStatic] using this
      | error e' => rw [hx] at h; simp at h
  | object o =>
      rw [export_object_def] at h
      cases hx : exportObject o with
      | ok js =>
          have := exportObject_ok_clean o js hx
          simpa [anyStatic] using this
      | error e' => rw [hx] at h; simp at h

theorem exportList_ok_clean (l : List OwnedValue) (js : List JValue)
    (h : exportList l = .ok js) :
    anyStaticList nonFiniteS l = false ∧ anyStaticList bad128S l = false := by
  cases l with
  | nil => simp [anyStaticList]
  | cons v vs =>
      rw [exportList_cons_def] at h
      cases hv : exportValue v with
      | ok j =>
          rw [hv] at h
          cases hvs : exportList vs with
          | ok js' =>
              have h1 := exportValue_ok_clean v j hv
              have h2 := exportList_ok_clean vs js' hvs
              simp [anyStaticList, h1.1, h1.2, h2.1, h2.2]
          | error e' => rw [hvs] at h; simp at h
      | error e' => rw [hv] at h; simp at h

theorem exportObject_ok_clean (l : List (String × OwnedValue))
    (js : List (String × JValue)) (h : exportObject l = .ok js) :
    anyStaticObject nonFiniteS l = false ∧ anyStaticObject bad128S l = false := by
  cases l with
  | nil => simp [anyStaticObject]
  | cons p ps =>
      obtain ⟨k, v⟩ := p
      rw [exportObject_cons_def] at h
      cases hv : exportValue v with
      | ok j =>
          rw [hv] at h
          cases hps : exportObject ps with
          | ok js' =>
              have h1 := exportValue_ok_clean v j hv
              have h2 := exportObject_ok_clean ps js' hps
              simp [anyStaticObject, h1.1, h1.2, h2.1, h2.2]
          | error e' => rw [hps] at h; simp at h
      | error e' => rw [hv] at h; simp at h

end

/-- C7, counterexample: a tree containing both an out-of-range 128-bit
integer and a `NaN` float fails with `NumberOutOfBounds` (the first
offending child), so "fails with NonFinite exactly when it contains a
non-finite float" is false as a biconditional: the tree contains `NaN`
but the error kind is not `NanOrInfinity`. -/
theorem C7_counterexample :
    exportValue (.array [.static (.u128 (2 ^ 64)), .static (.f64 .nan)]) =
      .error .numberOutOfBounds ∧
    anyStatic nonFiniteS (.array [.static (.u128 (2 ^ 64)), .static (.f64 .nan)]) =
      true ∧
    SerdeConversionError.numberOutOfBounds ≠ SerdeConversionError.nanOrInfinity := by
  refine ⟨?_, ?_, by decide⟩
  · simp [exportValue, exportList, Bind.bind, Except.bind, SJNumber.fromF64?,
      F64.isFinite]
  · simp [anyStatic, anyStaticList, nonFiniteS, F64.isFinite]

/-- C7 (amended): export fails exactly when the tree contains a non-finite
float or (under the extended-width configuration) a 128-bit integer that
does not fit the corresponding 64-bit type; a `NanOrInfinity` error
implies a non-finite float is present and a `NumberOutOfBounds` error
implies a non-fitting 128-bit integer is present (each biconditional as
originally claimed holds when only one offender kind is present, but the
error kind reported for a tree containing both kinds is that of the first
offender in order); arrays and objects recurse in order and short-circuit
on the first child failure. -/
theorem C7_export_error_conditions (v : OwnedValue) :
    ((∃ e, exportValue v = .error e) ↔
      (anyStatic nonFiniteS v = true ∨ anyStatic bad128S v = true)) ∧
    (exportValue v = .error .nanOrInfinity → anyStatic nonFiniteS v = true) ∧
    (exportValue v = .error .numberOutOfBounds → anyStatic bad128S v = true) ∧
    (anyStatic nonFiniteS v = true → anyStatic bad128S v = false →
      exportValue v = .error .nanOrInfinity) ∧
    (anyStatic bad128S v = true → anyStatic nonFiniteS v = false →
      exportValue v = .error .numberOutOfBounds) ∧
    (∀ e vs, exportValue v = .error e → exportValue (.array (v :: vs)) = .error e) ∧
    (∀ e k ps, exportValue v = .error e →
      exportValue (.object ((k, v) :: ps)) = .error e) := by
  refine ⟨⟨fun ⟨e, he⟩ => ?_, fun hor => ?_⟩, fun h => ?_, fun h => ?_,
    fun hnf hb => ?_, fun hb hnf => ?_, fun e vs he => ?_, fun e k ps he => ?_⟩
  · rcases exportValue_err v e he with ⟨_, ha⟩ | ⟨_, ha⟩
    · exact Or.inl ha
    · exact Or.inr ha
  · cases hv : exportValue v with
    | ok j =>
        have := exportValue_ok_clean v j hv
        rcases hor with ha | ha
        · rw [this.1] at ha; exact absurd ha (by simp)
        · rw [this.2] at ha; exact absurd ha (by simp)
    | error e => exact ⟨e, rfl⟩
  · rcases exportValue_err v _ h with ⟨_, ha⟩ | ⟨he, _⟩
    · exact ha
    · exact absurd he (by decide)
  · rcases exportValue_err v _ h with ⟨he, _⟩ | ⟨_, ha⟩
    · exact absurd he (by decide)
    · exact ha
  · cases hv : exportValue v with
    | ok j =>
        have := exportValue_ok_clean v j hv
        rw [this.1] at hnf
        exact absurd hnf (by simp)
    | error e =>
        rcases exportValue_err v e hv with ⟨he, _⟩ | ⟨_, ha⟩
        · rw [he]
        · rw [ha] at hb; exact absurd hb (by simp)
  · cases hv : exportValue v with
    | ok j =>
        have := exportValue_ok_clean v j hv
        rw [this.2] at hb
        exact absurd hb (by simp)
    | error e =>
        rcases exportValue_err v e hv with ⟨_, ha⟩ | ⟨he, _⟩
        · rw [ha] at hnf; exact absurd hnf (by simp)
        · rw [he]
  · rw [export_array_def, exportList_cons_def, he]
  · rw [export_object_def, exportObject_cons_def, he]

/-- C7 witness: the amended theorem at a lone `NaN` float (fails with
`NanOrInfinity`), a lone oversized `U128` (fails with
`NumberOutOfBounds`), and the failure-existence direction at positive
infinity. -/
theorem C7_witness :
    exportValue (.static (.f64 .nan)) = .error .nanOrInfinity ∧
    exportValue (.static (.u128 (2 ^ 64))) = .error .numberOutOfBounds ∧
    (∃ e, exportValue (.static (.f64 .inf)) = .error e) :=
  ⟨(C7_export_error_conditions (.static (.f64 .nan))).2.2.2.1
      (by simp [anyStatic, nonFiniteS, F64.isFinite])
      (by simp [anyStatic, bad128S]),
   (C7_export_error_conditions (.static (.u128 (2 ^ 64)))).2.2.2.2.1
      (by simp [anyStatic, bad128S])
      (by simp [anyStatic, nonFiniteS]),
   (C7_export_error_conditions (.static (.f64 .inf))).1.2
      (Or.inl (by simp [anyStatic, nonFiniteS, F64.isFinite]))⟩

theorem roundTrip_static (s : StaticNode) (hwf : s.wf = true)
    (h1 : nonFiniteS s = false) (h2 : bad128S s = false) :
    ∃ j s', exportValue (.static s) = .ok j ∧
      importValue j = .ok (.static s') ∧ staticEq s s' = true := by
  cases s with
  | null =>
      exact ⟨.null, .null, by simp [exportValue], by simp [importValue],
        by simp [staticEq]⟩
  | bool b =>
      exact ⟨.bool b, .bool b, by simp [exportValue], by simp [importValue],
        by simp [staticEq]⟩
  | i64 n =>
      simp [StaticNode.wf] at hwf
      by_cases h0 : 0 ≤ n
      · refine ⟨.number (.posInt n.toNat), .i64 n, ?_, ?_, ?_⟩
        · simp [exportValue, SJNumber.fromI64, h0]
        · have hlt : n.toNat < 9223372036854775808 := by omega
          have hc : ((n.toNat : ℤ)) = n := by omega
          simp [importValue, SJNumber.asI64, hlt, hc]
        · simp [staticEq, StaticNode.intValue?]
      · refine ⟨.number (.negInt n), .i64 n, ?_, ?_, ?_⟩
        · simp [exportValue, SJNumber.fromI64, h0]
        · simp [importValue, SJNumber.asI64]
        · simp [staticEq, StaticNode.intValue?]
  | u64 n =>
      simp [StaticNode.wf] at hwf
      by_cases hlt : n < 9223372036854775808
      · refine ⟨.number (.posInt n), .i64 (n : ℤ), ?_, ?_, ?_⟩
        · simp [exportValue, SJNumber.fromU64]
        · simp [importValue, SJNumber.asI64, hlt]
        · simp [staticEq, StaticNode.intValue?]
      · refine ⟨.number (.posInt n), .u64 n, ?_, ?_, ?_⟩
        · simp [exportValue, SJNumber.fromU64]
        · simp [importValue, SJNumber.asI64, SJNumber.asU64, hlt]
        · simp [staticEq, StaticNode.intValue?]
  | f64 f =>
      cases f with
      | finite q =>
          refine ⟨.number (.float (.finite q)), .f64 (.finite q), ?_, ?_, ?_⟩
          · simp [exportValue, SJNumber.fromF64?, F64.isFinite]
          · simp [importValue, SJNumber.asI64, SJNumber.asU64, SJNumber.asF64]
          · simp [staticEq]
      | nan => simp [nonFiniteS, F64.isFinite] at h1
      | inf => simp [nonFiniteS, F64.isFinite] at h1
      | negInf => simp [nonFiniteS, F64.isFinite] at h1
  | i128 n =>
      simp [bad128S] at h2
      by_cases h0 : 0 ≤ n
      · refine ⟨.number (.posInt n.toNat), .i64 n, ?_, ?_, ?_⟩
        · simp [exportValue, SJNumber.fromI64, h0]
          omega
        · have hlt : n.toNat < 9223372036854775808 := by omega
          have hc : ((n.toNat : ℤ)) = n := by omega
          simp [importValue, SJNumber.asI64, hlt, hc]
        · simp [staticEq, StaticNode.intValue?]
      · refine ⟨.number (.negInt n), .i64 n, ?_, ?_, ?_⟩
        · simp [exportValue, SJNumber.fromI64, h0]
          omega
        · simp [importValue, SJNumber.asI64]
        · simp [staticEq, StaticNode.intValue?]
  | u128 n =>
      simp [bad128S] at h2
      by_cases hlt : n < 9223372036854775808
      · refine ⟨.number (.posInt n), .i64 (n : ℤ), ?_, ?_, ?_⟩
        · simp [exportValue, SJNumber.fromU64, h2]
        · simp [importValue, SJNumber.asI64, hlt]
        · simp [staticEq, StaticNode.intValue?]
      · refine ⟨.number (.posInt n), .u64 n, ?_, ?_, ?_⟩
        · simp [exportValue, SJNumber.fromU64, h2]
        · simp [importValue, SJNumber.asI64, SJNumber.asU64, hlt]
        · simp [staticEq, StaticNode.intValue?]

mutual

theorem roundTrip_value (v : OwnedValue)
    (hwf : anyStatic (fun s => !s.wf) v = false)
    (h1 : anyStatic nonFiniteS v = false)
    (h2 : anyStatic bad128S v = false) :
    ∃ j v', exportValue v = .ok j ∧ importValue j = .ok v' ∧
      valueEq v v' = true := by
  cases v with
  | static s =>
      have hw : s.wf = true := by simpa [anyStatic] using hwf
      obtain ⟨j, s', he, hi, hs⟩ := roundTrip_static s hw
        (by simpa [anyStatic] using h1) (by simpa [anyStatic] using h2)
      exact ⟨j, .static s', he, hi, by simp [valueEq, hs]⟩
  | string s =>
      exact ⟨.string s, .string s, by simp [exportValue],
        by simp [importValue], by simp [valueEq]⟩
  | array a =>
      obtain ⟨js, vs', he, hi, hv⟩ := roundTrip_list a
        (by simpa [anyStatic] using hwf) (by simpa [anyStatic] using h1)
        (by simpa [anyStatic] using h2)
      refine ⟨.array js, .array vs', ?_, ?_, ?_⟩
      · rw [export_array_def, he]
      · rw [import_array_def, hi]
      · simp [valueEq, hv]
  | object o =>
      obtain ⟨js, vs', he, hi, hv⟩ := roundTrip_object o
        (by simpa [anyStatic] using hwf) (by simpa [anyStatic] using h1)
        (by simpa [anyStatic] using h2)
      refine ⟨.object js, .object vs', ?_, ?_, ?_⟩
      · rw [export_object_def, he]
      · rw [import_object_def, hi]
      · simp [valueEq, hv]

theorem roundTrip_list (l : List OwnedValue)
    (hwf : anyStaticList (fun s => !s.wf) l = false)
    (h1 : anyStaticList nonFiniteS l = false)
    (h2 : anyStaticList bad128S l = false) :
    ∃ js vs', exportList l = .ok js ∧ importList js = .ok vs' ∧
      valueEqList l vs' = true := by
  cases l with
  | nil => exact ⟨[], [], rfl, rfl, rfl⟩
  | cons v vs =>
      simp [anyStaticList] at hwf h1 h2
      obtain ⟨j, v', he, hi, hv⟩ := roundTrip_value v hwf.1 h1.1 h2.1
      obtain ⟨js, vs', hes, his, hvs⟩ := roundTrip_list vs hwf.2 h1.2 h2.2
      refine ⟨j :: js, v' :: vs', ?_, ?_, ?_⟩
      · rw [exportList_cons_def, he, hes]
      · rw [importList_cons_def, hi, his]
      · simp [valueEqList, hv, hvs]

theorem roundTrip_object (l : List (String × OwnedValue))
    (hwf : anyStaticObject (fun s => !s.wf) l = false)
    (h1 : anyStaticObject nonFiniteS l = false)
    (h2 : anyStaticObject bad128S l = false) :
    ∃ js vs', exportObject l = .ok js ∧ importObject js = .ok vs' ∧
      valueEqObject l vs' = true := by
  cases l with
  | nil => exact ⟨[], [], rfl, rfl, rfl⟩
  | cons p ps =>
      obtain ⟨k, v⟩ := p
      simp [anyStaticObject] at hwf h1 h2
      obtain ⟨j, v', he, hi, hv⟩ := roundTrip_value v hwf.1 h1.1 h2.1
      obtain ⟨js, vs', hes, his, hvs⟩ := roundTrip_object ps hwf.2 h1.2 h2.2
      refine ⟨(k, j) :: js, (k, v') :: vs', ?_, ?_, ?_⟩
      · rw [exportObject_cons_def, he, hes]
      · rw [importObject_cons_def, hi, his]
      · simp [valueEqObject, hv, hvs]

end

/-- C9: for every Owned tree whose machine-integer payloads are within
their widths and which contains no non-finite float and no integer outside
the 64-bit range, exporting to the external value and importing the result
back yields a tree equal to the original — same structure, same object key
order, same array element order, scalars equal per the §4.1 parsed-value
semantics. -/
theorem C9_round_trip (v : OwnedValue)
    (hwf : anyStatic (fun s => !s.wf) v = false)
    (h1 : anyStatic nonFiniteS v = false)
    (h2 : anyStatic bad128S v = false) :
    ∃ j v', exportValue v = .ok j ∧ importValue j = .ok v' ∧
      valueEq v v' = true :=
  roundTrip_value v hwf h1 h2

/-- C9 witness: the round trip at the spec's example tree
`{"a": 1, "b": [2, 3.5, -4]}`. -/
theorem C9_witness :
    ∃ j v', exportValue (.object [("a", .static (.i64 1)),
        ("b", .array [.static (.i64 2), .static (.f64 (.finite (mkRat 7 2))),
          .static (.i64 (-4))])]) = .ok j ∧
      importValue j = .ok v' ∧
      valueEq (.object [("a", .static (.i64 1)),
        ("b", .array [.static (.i64 2), .static (.f64 (.finite (mkRat 7 2))),
          .static (.i64 (-4))])]) v' = true :=
  C9_round_trip _
    (by simp [anyStatic, anyStaticList, anyStaticObject, StaticNode.wf])
    (by simp [anyStatic, anyStaticList, anyStaticObject, nonFiniteS, F64.isFinite])
    (by simp [anyStatic, anyStaticList, anyStaticObject, bad128S])
